import Mathlib

/-!
onnxruntime-inference-examples: model-explorer and the wide/UTF-8 string helpers.

A shallow embedding of

* `c_cxx/OpenVINO_EP/Windows/model-explorer/model-explorer.cpp`
  (`print_shape`, `calculate_product`, `main`), and
* `plugin_execution_providers/tensorrt/utils/helper.cc`
  (`ToUTF8String`, `ToWideString`),

followed by the properties proved about them.  The inference engine and the
platform's text conversion API are outside the repository: the engine's answers
are parameters of `main`, the conversion API is modelled in `Helper`.

Conventions.  An `int64_t` value is an `Int`; an `int` result is reduced into
`[-2^31, 2^31)` with `wrap32` wherever the source stores into an `int`; a
`size_t` is a `Nat` reduced modulo `2^64` where the source subtracts.  An access
`v[i]` outside the vector is undefined behaviour in the source; the embedding
stops there and reports the offending index.  `assert` is taken as enabled (the
build without `NDEBUG`): a failing assertion aborts the process.
-/

namespace ModelExplorer

/-! ## Machine integers -/

/-- Largest value of `size_t` on the 64-bit target. -/
def SIZE_MAX : Nat := 2 ^ 64 - 1

/-- Largest value of `int`, `std::numeric_limits<int>::max()`. -/
def INT_MAX : Nat := 2 ^ 31 - 1

/-- Reduction of an integer into the signed 32-bit range (two's complement
wrap-around), the value an `int` holds after a store of `x`. -/
@[irreducible] def wrap32 (x : Int) : Int := (x + 2 ^ 31) % 2 ^ 32 - 2 ^ 31

/-- Reduction of an integer into the signed 64-bit range, the value of an
`int64_t` expression under wrap-around. -/
@[irreducible] def wrap64 (x : Int) : Int := (x + 2 ^ 63) % 2 ^ 64 - 2 ^ 63

/-- Unsigned `size_t` subtraction `a - b` of two `size_t` values: the difference
modulo `2^64`, which wraps when `a < b`. -/
def size_sub (a b : Nat) : Nat := if b ≤ a then a - b else a + 2 ^ 64 - b

/-! ## `print_shape` (model-explorer.cpp, lines 30-37) -/

/-- State of one call of `print_shape`: the contents of the string stream `ss`,
the indices read through `v[i]` so far (in order), and the number of times the
loop body has run. -/
structure ShapeState where
  ss : String
  reads : List Nat
  iters : Nat
deriving DecidableEq, Repr

/-- How a call of `print_shape` ends: it reaches `return ss.str()`, or it
performs the access `v[index]` with `index` outside the vector. -/
inductive ShapeOutcome where
  | finished (st : ShapeState)
  | outOfBounds (index : Nat) (st : ShapeState)
deriving DecidableEq, Repr

/-- The loop `for (size_t i = 0; i < v.size() - 1; i++) ss << v[i] << "x";`
started at index `i` with the loop bound already computed.  `operator<<` on an
`int64_t` writes its decimal rendering, which is `toString` on `Int`. -/
def print_shape_loop (v : List Int) (bound : Nat) (i : Nat) (st : ShapeState) : ShapeOutcome :=
  if i < bound then
    match v.get? i with
    | none => ShapeOutcome.outOfBounds i st
    | some d =>
      print_shape_loop v bound (i + 1)
        { ss := st.ss ++ toString d ++ "x", reads := st.reads ++ [i], iters := st.iters + 1 }
  else ShapeOutcome.finished st
termination_by bound - i

/-- The whole body of `print_shape`, instrumented: the loop with the unsigned
bound `v.size() - 1`, then `ss << v[v.size() - 1]`. -/
def print_shape_run (v : List Int) : ShapeOutcome :=
  match print_shape_loop v (size_sub v.length 1) 0 { ss := "", reads := [], iters := 0 } with
  | ShapeOutcome.outOfBounds i st => ShapeOutcome.outOfBounds i st
  | ShapeOutcome.finished st =>
    match v.get? (size_sub v.length 1) with
    | none => ShapeOutcome.outOfBounds (size_sub v.length 1) st
    | some d =>
      ShapeOutcome.finished
        { ss := st.ss ++ toString d, reads := st.reads ++ [size_sub v.length 1], iters := st.iters }

/-- The function `print_shape`: the returned string, or `none` when the call
runs into an out-of-bounds access. -/
def print_shape (v : List Int) : Option String :=
  match print_shape_run v with
  | ShapeOutcome.finished st => some st.ss
  | ShapeOutcome.outOfBounds _ _ => none

/-! ## `calculate_product` (model-explorer.cpp, lines 39-43) -/

/-- One step `total *= i` with `total : int` and `i : int64_t`: the product is
formed in `int64_t` (wrap-around) and stored back into the `int`. -/
def mul_step (total : Int) (i : Int) : Int := wrap32 (wrap64 (total * i))

/-- The function `calculate_product`: `int total = 1; for (auto& i : v) total *= i;`. -/
def calculate_product (v : List Int) : Int := v.foldl mul_step 1

/-- Text the loop of `print_shape` has appended after the dimensions `l`: each
rendering followed by the separator. -/
def shape_lead : List Int → String
  | [] => ""
  | d :: l => toString d ++ "x" ++ shape_lead l

/-! ## `main` (model-explorer.cpp, lines 47-165)

The inference engine (`onnxruntime_cxx_api.h`) is an external library.  What it
answers during one run of the program is a parameter of `main`; the calls the
program makes to it are recorded, in order, together with what the program
writes to `std::cout`. -/

/-- An `Ort::Value` as the program inspects it: `IsTensor()` and the shape
reported by `GetTensorTypeAndShapeInfo().GetShape()`. -/
structure Tensor where
  isTensor : Bool
  shape : List Int
deriving DecidableEq, Repr

/-- An opened `Ort::Session`: the declared inputs and outputs (name and shape,
in declared order) and the answer of `Run` to the input names, input tensors
and output names: the output tensors, or the message of the `Ort::Exception`
it throws. -/
structure Session where
  inputs : List (String × List Int)
  outputs : List (String × List Int)
  run : List String → List Tensor → List String → Except String (List Tensor)

/-- The engine: opening a session on a model path (the session, or the message
of the exception thrown), and `Ort::Value::CreateTensor<float>` on a value
buffer and a shape. -/
structure Engine where
  openSession : String → Except String Session
  createTensor : List Nat → List Int → Except String Tensor

/-- The output statements of `main`, one constructor per `cout << ...` statement. -/
inductive Line where
  | usage
  | deviceType
  | inputHeader (n : Nat)
  | outputHeader (n : Nat)
  | node (name : String) (shape : String)
  | inputTensorShape (shape : String)
  | running
  | done
  | outputTensorShape (shape : String)
  | inferenceError (what : String)
deriving DecidableEq, Repr

/-- The characters a statement writes (`endl` is a newline). -/
def Line.text : Line → String
  | Line.usage => "Usage: model-explorer.exe <onnx_model.onnx>\n"
  | Line.deviceType => "OpenVINO device type is set to: CPU\n"
  | Line.inputHeader n => "Input Node Name/Shape (" ++ toString n ++ "):\n"
  | Line.outputHeader n => "Output Node Name/Shape (" ++ toString n ++ "):\n"
  | Line.node name shape => "\t" ++ name ++ " : " ++ shape ++ "\n"
  | Line.inputTensorShape shape => "\ninput_tensor shape: " ++ shape ++ "\n"
  | Line.running => "Running model..."
  | Line.done => "done\n"
  | Line.outputTensorShape shape => "output_tensor_shape: " ++ shape ++ "\n"
  | Line.inferenceError what => "ERROR running model inference: " ++ what ++ "\n"

/-- What the program does that is visible from outside, in order. -/
inductive Event where
  | print (l : Line)
  | createEnv
  | createSessionOptions
  | appendOpenVINO
  | createSession (path : String)
  | getInputCount
  | queryInput (i : Nat)
  | getOutputCount
  | queryOutput (i : Nat)
  | synthesize (values : List Nat)
  | createTensor (count : Nat) (shape : List Int)
  | run (result : Except String (List Tensor))

/-- How the process ends. -/
inductive Exit where
  | returned (status : Int)
  | exited (status : Int)
  | assertFailed (line : Nat)
  | uncaught (what : String)
  | outOfBounds (line : Nat)
deriving DecidableEq, Repr

/-- One run of the program: its events and its end. -/
structure Run where
  events : List Event
  exit : Exit

/-- The run `r` preceded by the events `evs`. -/
def Run.after (evs : List Event) (r : Run) : Run :=
  { events := evs ++ r.events, exit := r.exit }

/-- Everything a run wrote to standard output. -/
def stdout_of : List Event → String
  | [] => ""
  | Event.print l :: evs => l.text ++ stdout_of evs
  | _ :: evs => stdout_of evs

/-- The enumeration loops (lines 80-93 for the inputs, 100-113 for the outputs)
from index `i` on: each node is queried and its descriptor printed.  The second
component is `false` when a `print_shape` call ran out of bounds; the loop stops
there, and what the statement had written before the call is not recorded. -/
def enumerate (query : Nat → Event) : Nat → List (String × List Int) → List Event × Bool
  | _, [] => ([], true)
  | i, (name, shape) :: rest =>
    match print_shape shape with
    | none => ([query i], false)
    | some s =>
      (query i :: Event.print (Line.node name s) :: (enumerate query (i + 1) rest).1,
        (enumerate query (i + 1) rest).2)

/-- The buffer `std::vector<float> input_tensor_values(total_number_elements)`
filled by `std::generate` with `rand() % 255`, where `rand k` is the value of the
`k`-th call of `rand()`.  The `int` count is converted to `size_t`; a negative
one becomes a size above `max_size()` and the constructor throws
`std::length_error` (`none`). -/
def input_tensor_values (rand : Nat → Nat) (total_number_elements : Int) : Option (List Nat) :=
  if total_number_elements < 0 then none
  else some ((List.range total_number_elements.toNat).map (fun k => rand k % 255))

/-- Lines 146-163: the inference call inside `try`, the check of its result, and
the handler of `Ort::Exception`. -/
def main_infer (s : Session) (input_names output_names : List String)
    (input_tensors : List Tensor) : Run :=
  match s.run input_names input_tensors output_names with
  | Except.error what =>
    { events := [Event.print Line.running, Event.run (Except.error what),
        Event.print (Line.inferenceError what)],
      exit := Exit.exited (-1) }
  | Except.ok output_tensors =>
    if output_tensors.length ≠ output_names.length then
      { events := [Event.print Line.running, Event.run (Except.ok output_tensors),
          Event.print Line.done],
        exit := Exit.assertFailed 155 }
    else
      match output_tensors.get? 0 with
      | none =>
        { events := [Event.print Line.running, Event.run (Except.ok output_tensors),
            Event.print Line.done],
          exit := Exit.outOfBounds 155 }
      | some t =>
        if t.isTensor = false then
          { events := [Event.print Line.running, Event.run (Except.ok output_tensors),
              Event.print Line.done],
            exit := Exit.assertFailed 155 }
        else
          match print_shape t.shape with
          | none =>
            { events := [Event.print Line.running, Event.run (Except.ok output_tensors),
                Event.print Line.done],
              exit := Exit.outOfBounds 156 }
          | some shp =>
            { events := [Event.print Line.running, Event.run (Except.ok output_tensors),
                Event.print Line.done, Event.print (Line.outputTensorShape shp)],
              exit := Exit.returned 0 }

/-- Lines 117-144: the first input shape, the element count, the random buffer,
the input tensor and its check; then the inference. -/
def main_synthesize (rand : Nat → Nat) (e : Engine) (s : Session)
    (input_names output_names : List String) (input_shapes : List (List Int)) : Run :=
  match input_shapes.get? 0 with
  | none => { events := [], exit := Exit.outOfBounds 118 }
  | some input_shape =>
    match input_tensor_values rand (calculate_product input_shape) with
    | none => { events := [], exit := Exit.uncaught "std::length_error" }
    | some values =>
      match e.createTensor values input_shape with
      | Except.error what =>
        { events := [Event.synthesize values, Event.createTensor values.length input_shape],
          exit := Exit.uncaught what }
      | Except.ok t =>
        if t.isTensor = true ∧ t.shape = input_shape then
          match print_shape t.shape with
          | none =>
            { events := [Event.synthesize values, Event.createTensor values.length input_shape],
              exit := Exit.outOfBounds 133 }
          | some shp =>
            Run.after
              [Event.synthesize values, Event.createTensor values.length input_shape,
                Event.print (Line.inputTensorShape shp)]
              (main_infer s input_names output_names [t])
        else
          { events := [Event.synthesize values, Event.createTensor values.length input_shape],
            exit := Exit.assertFailed 131 }

/-- The events of lines 75-113 when both enumerations run to their end: the two
counts, the two header lines and the queries and descriptor lines of the nodes. -/
def enumeration_events (s : Session) : List Event :=
  Event.getInputCount :: Event.print (Line.inputHeader s.inputs.length) ::
    ((enumerate Event.queryInput 0 s.inputs).1 ++
      Event.getOutputCount :: Event.print (Line.outputHeader s.outputs.length) ::
        (enumerate Event.queryOutput 0 s.outputs).1)

/-- Lines 75-115: the two enumerations and the single-input/single-output
assertion; then the rest of the program. -/
def main_session (rand : Nat → Nat) (e : Engine) (s : Session) : Run :=
  if (enumerate Event.queryInput 0 s.inputs).2 = false then
    { events := Event.getInputCount :: Event.print (Line.inputHeader s.inputs.length) ::
        (enumerate Event.queryInput 0 s.inputs).1,
      exit := Exit.outOfBounds 91 }
  else if (enumerate Event.queryOutput 0 s.outputs).2 = false then
    { events := enumeration_events s, exit := Exit.outOfBounds 111 }
  else if s.inputs.length = 1 ∧ s.outputs.length = 1 then
    Run.after (enumeration_events s)
      (main_synthesize rand e s (s.inputs.map Prod.fst) (s.outputs.map Prod.fst)
        (s.inputs.map Prod.snd))
  else { events := enumeration_events s, exit := Exit.assertFailed 115 }

/-- Lines 61-72: the environment, the session options (with the OpenVINO
provider when the program is built with `USE_OPENVINO`) and the session. -/
def setup_events (use_openvino : Bool) (model_file : String) : List Event :=
  [Event.createEnv, Event.createSessionOptions] ++
    (if use_openvino then [Event.print Line.deviceType, Event.appendOpenVINO] else []) ++
    [Event.createSession model_file]

/-- The program: `argc` and `argv[1]`, the build flag `USE_OPENVINO`, the values
of `rand()` and the engine. -/
def main (use_openvino : Bool) (rand : Nat → Nat) (e : Engine) (argc : Int)
    (model_file : String) : Run :=
  if argc ≠ 2 then
    { events := [Event.print Line.usage], exit := Exit.returned (-1) }
  else
    match e.openSession model_file with
    | Except.error what =>
      { events := setup_events use_openvino model_file, exit := Exit.uncaught what }
    | Except.ok s =>
      Run.after (setup_events use_openvino model_file) (main_session rand e s)

/-- An event of the part of `main` after the single-input/single-output
assertion: the buffer, the tensor, the inference. -/
def Event.is_tensor_work : Event → Bool
  | Event.synthesize _ => true
  | Event.createTensor _ _ => true
  | Event.run _ => true
  | _ => false

/-- A session used to exercise `main`: the given inputs, one output `prob` of
shape `[1, 3]`, and a `Run` that answers `result`. -/
def sample_session (inputs : List (String × List Int))
    (result : Except String (List Tensor)) : Session :=
  { inputs := inputs, outputs := [("prob", [1, 3])], run := fun _ _ _ => result }

/-- An engine used to exercise `main`: every path opens `sample_session`, and
`CreateTensor` gives a tensor of the requested shape. -/
def sample_engine (inputs : List (String × List Int))
    (result : Except String (List Tensor)) : Engine :=
  { openSession := fun _ => Except.ok (sample_session inputs result),
    createTensor := fun _ shape => Except.ok { isTensor := true, shape := shape } }

end ModelExplorer

namespace Helper

open ModelExplorer

/-! ## The platform conversion API

`helper.cc` calls `WideCharToMultiByte` and `MultiByteToWideChar` with code page
`CP_UTF8` and flags `0`.  They belong to the platform, not to the repository: no
source of them is at hand, and they are modelled here from what the
specification says of them (a two-pass "measure-then-convert" wide/UTF-8
transcoding, lossless on text both encodings represent, with "encoding-specific
error substitutions" elsewhere).  A wide code unit is a natural number below
`2^16`, a byte one below `2^8`. -/

/-- Modelled from the spec: the UTF-8 form of one code point, which the
platform's `WideCharToMultiByte` (not part of the repository) writes for it. -/
def utf8_encode1 (c : Nat) : List Nat :=
  if c < 0x80 then [c]
  else if c < 0x800 then [0xC0 + c / 64, 0x80 + c % 64]
  else if c < 0x10000 then [0xE0 + c / 4096, 0x80 + c / 64 % 64, 0x80 + c % 64]
  else [0xF0 + c / 262144, 0x80 + c / 4096 % 64, 0x80 + c / 64 % 64, 0x80 + c % 64]

/-- Modelled from the spec: the wide (UTF-16) form of one code point, which the
platform's `MultiByteToWideChar` (not part of the repository) writes for it:
itself in the basic plane, a surrogate pair above it. -/
def utf16_encode1 (c : Nat) : List Nat :=
  if c < 0x10000 then [c]
  else [0xD800 + (c - 0x10000) / 1024, 0xDC00 + (c - 0x10000) % 1024]

/-- Modelled from the spec: the UTF-8 form of a sequence of code points. -/
def utf8_encode : List Nat → List Nat
  | [] => []
  | c :: cs => utf8_encode1 c ++ utf8_encode cs

/-- Modelled from the spec: the wide form of a sequence of code points. -/
def utf16_encode : List Nat → List Nat
  | [] => []
  | c :: cs => utf16_encode1 c ++ utf16_encode cs

/-- Modelled from the spec: the code points of a wide string.  A surrogate pair
is one code point; a surrogate without its partner is an "encoding-specific
error substitution": it is read as U+FFFD and decoding goes on at the next unit
(`rest`). -/
def utf16_decode : List Nat → List Nat
  | [] => []
  | u :: t0 =>
    let rest := utf16_decode t0
    if 0xD800 ≤ u ∧ u < 0xDC00 then
      match t0 with
      | [] => [0xFFFD]
      | l :: t1 =>
        if 0xDC00 ≤ l ∧ l < 0xE000 then
          (0x10000 + (u - 0xD800) * 1024 + (l - 0xDC00)) :: utf16_decode t1
        else 0xFFFD :: rest
    else if 0xDC00 ≤ u ∧ u < 0xE000 then 0xFFFD :: rest
    else u :: rest

/-- Modelled from the spec: a UTF-8 continuation byte `10xxxxxx`. -/
def is_cont (b : Nat) : Bool := decide (0x80 ≤ b ∧ b < 0xC0)

/-- Modelled from the spec: the code point of a well-formed two-byte sequence. -/
def utf8_seq2 (b0 b1 : Nat) : Option Nat :=
  if 0xC2 ≤ b0 ∧ b0 < 0xE0 ∧ is_cont b1 = true then some ((b0 - 0xC0) * 64 + (b1 - 0x80))
  else none

/-- Modelled from the spec: the code point of a well-formed three-byte sequence:
not an overlong form and not a surrogate. -/
def utf8_seq3 (b0 b1 b2 : Nat) : Option Nat :=
  if 0xE0 ≤ b0 ∧ b0 < 0xF0 ∧ is_cont b1 = true ∧ is_cont b2 = true ∧
      0x800 ≤ (b0 - 0xE0) * 4096 + (b1 - 0x80) * 64 + (b2 - 0x80) ∧
      ¬ (0xD800 ≤ (b0 - 0xE0) * 4096 + (b1 - 0x80) * 64 + (b2 - 0x80) ∧
          (b0 - 0xE0) * 4096 + (b1 - 0x80) * 64 + (b2 - 0x80) < 0xE000) then
    some ((b0 - 0xE0) * 4096 + (b1 - 0x80) * 64 + (b2 - 0x80))
  else none

/-- Modelled from the spec: the code point of a well-formed four-byte sequence:
above the basic plane and at most U+10FFFF. -/
def utf8_seq4 (b0 b1 b2 b3 : Nat) : Option Nat :=
  if 0xF0 ≤ b0 ∧ b0 < 0xF8 ∧ is_cont b1 = true ∧ is_cont b2 = true ∧ is_cont b3 = true ∧
      0x10000 ≤ (b0 - 0xF0) * 262144 + (b1 - 0x80) * 4096 + (b2 - 0x80) * 64 + (b3 - 0x80) ∧
      (b0 - 0xF0) * 262144 + (b1 - 0x80) * 4096 + (b2 - 0x80) * 64 + (b3 - 0x80) < 0x110000 then
    some ((b0 - 0xF0) * 262144 + (b1 - 0x80) * 4096 + (b2 - 0x80) * 64 + (b3 - 0x80))
  else none

/-- Modelled from the spec: the code points of a UTF-8 string.  A byte that does
not start a well-formed sequence (a stray continuation byte, a truncated or
overlong sequence, an encoded surrogate, a value above U+10FFFF) is an error
substitution: it is read as U+FFFD and decoding goes on at the next byte
(`rest`). -/
def utf8_decode : List Nat → List Nat
  | [] => []
  | b0 :: t0 =>
    let rest := utf8_decode t0
    if b0 < 0x80 then b0 :: rest
    else
      match t0 with
      | [] => [0xFFFD]
      | b1 :: t1 =>
        match utf8_seq2 b0 b1 with
        | some c => c :: utf8_decode t1
        | none =>
          match t1 with
          | [] => 0xFFFD :: rest
          | b2 :: t2 =>
            match utf8_seq3 b0 b1 b2 with
            | some c => c :: utf8_decode t2
            | none =>
              match t2 with
              | [] => 0xFFFD :: rest
              | b3 :: t3 =>
                match utf8_seq4 b0 b1 b2 b3 with
                | some c => c :: utf8_decode t3
                | none => 0xFFFD :: rest

/-- What one call of the conversion API gives back: its `int` return value and
the code units it stored into the destination buffer. -/
structure ApiAnswer where
  ret : Int
  written : List Nat
deriving DecidableEq, Repr

/-- Modelled from the spec: one call of the two-pass "measure-then-convert"
conversion API.  `mem` is the memory at the source pointer, `src_len` the
number of code units to read from it, `cap` the size of the destination (`0`
asks for the required size only) and `convert` the transcoding.  The helpers
pass a positive `src_len` only; any other is answered as a failure here.  The
call fails, returning `0`, when the destination is too small, and when the
required size is above `INT_MAX` and so cannot be returned in the `int` result.
(In the last case the helpers end in a failed assertion whatever `int` comes
back: a non-positive one fails `assert(len > 0)`; a positive one is below the
required size, so the converting call fails for want of room and
`assert(len == r)` fails; this is `convert_with_stops` below.) -/
def api_call (convert : List Nat → List Nat) (mem : List Nat) (src_len : Int) (cap : Int) :
    ApiAnswer :=
  if src_len ≤ 0 then { ret := 0, written := [] }
  else if (INT_MAX : Int) < (convert (mem.take src_len.toNat)).length then
    { ret := 0, written := [] }
  else if cap = 0 then
    { ret := (convert (mem.take src_len.toNat)).length, written := [] }
  else if ((convert (mem.take src_len.toNat)).length : Int) ≤ cap then
    { ret := (convert (mem.take src_len.toNat)).length,
      written := convert (mem.take src_len.toNat) }
  else { ret := 0, written := (convert (mem.take src_len.toNat)).take cap.toNat }

/-- Modelled from the spec: the platform function
`WideCharToMultiByte(CP_UTF8, 0, mem, src_len, dst, cap, nullptr, nullptr)`, which
is not part of the repository: wide text to UTF-8. -/
def WideCharToMultiByte (mem : List Nat) (src_len : Int) (cap : Int) : ApiAnswer :=
  api_call (fun units => utf8_encode (utf16_decode units)) mem src_len cap

/-- Modelled from the spec: the platform function
`MultiByteToWideChar(CP_UTF8, 0, mem, src_len, dst, cap)`, which is not part of the
repository: UTF-8 to wide text. -/
def MultiByteToWideChar (mem : List Nat) (src_len : Int) (cap : Int) : ApiAnswer :=
  api_call (fun bytes => utf16_encode (utf8_decode bytes)) mem src_len cap

/-! ## `ToUTF8String` and `ToWideString` (helper.cc, lines 21-49)

A `std::wstring_view` or `std::string_view` argument is its code units `s`
together with `term`, the code unit stored at `s.data()[s.size()]`: both helpers
pass `s.size() + 1` as the source length, so the call reads it.  It is `0`, the
terminating marker, when the view is over a string. -/

/-- One call of the conversion API as a helper issues it. -/
structure ApiCall where
  src : List Nat
  src_len : Int
  cap : Int
deriving DecidableEq, Repr

/-- How a helper call ends: `THROW(what)`, a failed `assert` (at the source
line), or `return ret`, where `slot` is the code unit the call left at
`ret.data()[ret.size()]`.  `THROW` is a macro of `ep_utils.h`, which is not at
hand; by the specification it hands the failure, with its message, to the
caller. -/
inductive HelperResult where
  | threw (what : String)
  | assertFailed (line : Nat)
  | returned (ret : List Nat) (slot : Nat)
deriving DecidableEq, Repr

/-- One helper call: the API calls it made, in order, and its end. -/
structure HelperRun where
  calls : List ApiCall
  result : HelperResult
deriving DecidableEq, Repr

/-- The source length `static_cast<int>(s.size() + 1)`. -/
def src_len_of (s : List Nat) : Int := wrap32 ((s.length + 1 : Nat) : Int)

/-- The storage of `std::string ret(len - 1, 0)` (its `len - 1` characters and
the terminator after them, all `0`) after the API has stored `written` at its
start. -/
def stored (written : List Nat) (len : Int) : List Nat :=
  (written ++ List.replicate (len.toNat - written.length) 0).take len.toNat

/-- The function `ToUTF8String` (lines 21-34): the length check, the source
length, the measuring call and `assert(len > 0)`, the string `ret` of `len - 1`
characters, the converting call into it and `assert(len == r)`. -/
def ToUTF8String (s : List Nat) (term : Nat) : HelperRun :=
  if INT_MAX ≤ s.length then
    { calls := [], result := HelperResult.threw "length overflow" }
  else
    let src_len := src_len_of s
    let measure := WideCharToMultiByte (s ++ [term]) src_len 0
    let len := measure.ret
    if len ≤ 0 then
      { calls := [{ src := s ++ [term], src_len := src_len, cap := 0 }],
        result := HelperResult.assertFailed 27 }
    else
      let conversion := WideCharToMultiByte (s ++ [term]) src_len len
      let r := conversion.ret
      if len ≠ r then
        { calls := [{ src := s ++ [term], src_len := src_len, cap := 0 },
            { src := s ++ [term], src_len := src_len, cap := len }],
          result := HelperResult.assertFailed 31 }
      else
        { calls := [{ src := s ++ [term], src_len := src_len, cap := 0 },
            { src := s ++ [term], src_len := src_len, cap := len }],
          result :=
            HelperResult.returned ((stored conversion.written len).take (len.toNat - 1))
              ((stored conversion.written len).getD (len.toNat - 1) 0) }

/-- The function `ToWideString` (lines 36-49): as `ToUTF8String`, with
`MultiByteToWideChar`. -/
def ToWideString (s : List Nat) (term : Nat) : HelperRun :=
  if INT_MAX ≤ s.length then
    { calls := [], result := HelperResult.threw "length overflow" }
  else
    let src_len := src_len_of s
    let measure := MultiByteToWideChar (s ++ [term]) src_len 0
    let len := measure.ret
    if len ≤ 0 then
      { calls := [{ src := s ++ [term], src_len := src_len, cap := 0 }],
        result := HelperResult.assertFailed 42 }
    else
      let conversion := MultiByteToWideChar (s ++ [term]) src_len len
      let r := conversion.ret
      if len ≠ r then
        { calls := [{ src := s ++ [term], src_len := src_len, cap := 0 },
            { src := s ++ [term], src_len := src_len, cap := len }],
          result := HelperResult.assertFailed 46 }
      else
        { calls := [{ src := s ++ [term], src_len := src_len, cap := 0 },
            { src := s ++ [term], src_len := src_len, cap := len }],
          result :=
            HelperResult.returned ((stored conversion.written len).take (len.toNat - 1))
              ((stored conversion.written len).getD (len.toNat - 1) 0) }

/-- The body the two helpers share, for the API function `api` and the source
lines `line_len`, `line_r` of the two assertions: `ToUTF8String` is
`convert_with WideCharToMultiByte 27 31` and `ToWideString` is
`convert_with MultiByteToWideChar 42 46`. -/
def convert_with (api : List Nat → Int → Int → ApiAnswer) (line_len line_r : Nat)
    (s : List Nat) (term : Nat) : HelperRun :=
  if INT_MAX ≤ s.length then
    { calls := [], result := HelperResult.threw "length overflow" }
  else
    let src_len := src_len_of s
    let measure := api (s ++ [term]) src_len 0
    let len := measure.ret
    if len ≤ 0 then
      { calls := [{ src := s ++ [term], src_len := src_len, cap := 0 }],
        result := HelperResult.assertFailed line_len }
    else
      let conversion := api (s ++ [term]) src_len len
      let r := conversion.ret
      if len ≠ r then
        { calls := [{ src := s ++ [term], src_len := src_len, cap := 0 },
            { src := s ++ [term], src_len := src_len, cap := len }],
          result := HelperResult.assertFailed line_r }
      else
        { calls := [{ src := s ++ [term], src_len := src_len, cap := 0 },
            { src := s ++ [term], src_len := src_len, cap := len }],
          result :=
            HelperResult.returned ((stored conversion.written len).take (len.toNat - 1))
              ((stored conversion.written len).getD (len.toNat - 1) 0) }

end Helper

/-! # Properties -/

namespace ModelExplorer

/-! ### `print_shape` -/

theorem size_sub_one_of_pos (n : Nat) (h0 : 0 < n) :
    size_sub n 1 = n - 1 := by
  have h1 : 1 ≤ n := h0
  simp [size_sub, h1]

theorem size_sub_zero_one : size_sub 0 1 = SIZE_MAX := by
  simp [size_sub, SIZE_MAX]

theorem print_shape_loop_spec (v : List Int) (bound : Nat) (hb : bound < v.length) :
    ∀ (k i : Nat) (st : ShapeState), i + k = bound →
      print_shape_loop v bound i st =
        ShapeOutcome.finished
          { ss := st.ss ++ shape_lead ((v.drop i).take k),
            reads := st.reads ++ List.range' i k,
            iters := st.iters + k } := by
  intro k
  induction k with
  | zero =>
    intro i st h
    rw [print_shape_loop]
    have : ¬ i < bound := by omega
    simp [this, shape_lead]
  | succ k ih =>
    intro i st h
    rw [print_shape_loop]
    have h1 : i < bound := by omega
    have h2 : i < v.length := by omega
    have hd : v.drop i = v[i] :: v.drop (i + 1) := List.drop_eq_getElem_cons h2
    have hg : v.get? i = some v[i] := by simp [List.getElem?_eq_getElem h2]
    simp only [h1, if_true, hg]
    rw [ih (i + 1) _ (by omega), hd]
    simp [shape_lead, List.range'_succ, String.append_assoc, Nat.add_assoc, Nat.add_comm 1 k]

theorem intercalate_go_append (s p : String) :
    ∀ (l : List String) (acc : String),
      String.intercalate.go (p ++ acc) s l = p ++ String.intercalate.go acc s l := by
  intro l
  induction l with
  | nil => intro acc; simp [String.intercalate.go]
  | cons a l ih =>
    intro acc
    simp only [String.intercalate.go]
    rw [String.append_assoc, String.append_assoc, ih, String.append_assoc]

theorem shape_lead_append_last (l : List Int) (a : Int) :
    shape_lead l ++ toString a = "x".intercalate ((l ++ [a]).map toString) := by
  induction l with
  | nil => simp [shape_lead, String.intercalate, String.intercalate.go]
  | cons b l ih =>
    cases l with
    | nil =>
      simp [shape_lead, String.intercalate, String.intercalate.go, String.append_assoc]
    | cons c l =>
      simp only [shape_lead, List.cons_append, List.map_cons, String.intercalate,
        String.intercalate.go] at ih ⊢
      rw [intercalate_go_append "x" (toString b ++ "x") _ (toString c), ← ih]
      simp only [String.append_assoc]

theorem print_shape_run_of_ne_nil (v : List Int) (hv : v ≠ []) :
    print_shape_run v =
      ShapeOutcome.finished
        { ss := "x".intercalate (v.map toString),
          reads := List.range v.length,
          iters := v.length - 1 } := by
  have hpos : 0 < v.length := List.length_pos.mpr hv
  have hs : size_sub v.length 1 = v.length - 1 := size_sub_one_of_pos _ hpos
  have hlast : v.length - 1 < v.length := by omega
  have hg : v.get? (v.length - 1) = some v[v.length - 1] := by
    simp [List.getElem?_eq_getElem hlast]
  have hsplit : v.take (v.length - 1) ++ [v[v.length - 1]] = v := by
    have h1 := List.take_append_drop (v.length - 1) v
    rw [List.drop_eq_getElem_cons hlast] at h1
    have h2 : v.drop (v.length - 1 + 1) = [] := by
      apply List.drop_eq_nil_of_le
      omega
    rw [h2] at h1
    exact h1
  have hss : shape_lead (v.take (v.length - 1)) ++ toString v[v.length - 1]
      = "x".intercalate (v.map toString) := by
    rw [shape_lead_append_last, hsplit]
  have hr : List.range' 0 (v.length - 1) ++ [v.length - 1] = List.range v.length := by
    have h3 : List.range (v.length - 1 + 1) = List.range (v.length - 1) ++ [v.length - 1] :=
      List.range_succ _
    rw [show v.length - 1 + 1 = v.length by omega] at h3
    rw [h3, List.range_eq_range']
  rw [print_shape_run]
  rw [hs, print_shape_loop_spec v (v.length - 1) hlast (v.length - 1) 0 _ (by omega)]
  simp only [hg, List.drop_zero]
  simp only [String.empty_append, List.nil_append, Nat.zero_add, hss, hr]

theorem print_shape_run_nil :
    print_shape_run [] = ShapeOutcome.outOfBounds 0 { ss := "", reads := [], iters := 0 } := by
  rw [print_shape_run, print_shape_loop]
  simp [size_sub]

/-! ### `calculate_product` -/

theorem wrap32_modEq (x : Int) : wrap32 x ≡ x [ZMOD 2 ^ 32] := by
  unfold Int.ModEq wrap32
  omega

theorem wrap64_modEq32 (x : Int) : wrap64 x ≡ x [ZMOD 2 ^ 32] := by
  unfold Int.ModEq wrap64
  omega

theorem wrap32_congr {x y : Int} (h : x ≡ y [ZMOD 2 ^ 32]) : wrap32 x = wrap32 y := by
  unfold Int.ModEq at h
  unfold wrap32
  omega

theorem wrap32_range (x : Int) : -2 ^ 31 ≤ wrap32 x ∧ wrap32 x < 2 ^ 31 := by
  unfold wrap32
  omega

theorem wrap32_eq_self_iff (x : Int) : wrap32 x = x ↔ (-2 ^ 31 ≤ x ∧ x < 2 ^ 31) := by
  unfold wrap32
  omega

theorem mul_step_wrap32 (a b : Int) : mul_step (wrap32 a) b = wrap32 (a * b) := by
  unfold mul_step
  exact wrap32_congr ((wrap64_modEq32 _).trans (Int.ModEq.mul_right b (wrap32_modEq a)))

theorem foldl_mul_step (l : List Int) :
    ∀ a : Int, l.foldl mul_step (wrap32 a) = wrap32 (a * l.prod) := by
  induction l with
  | nil => intro a; simp
  | cons b l ih =>
    intro a
    rw [List.foldl_cons, mul_step_wrap32, ih, List.prod_cons, mul_assoc]

theorem calculate_product_eq_wrap32 (v : List Int) : calculate_product v = wrap32 v.prod := by
  have h1 : (1 : Int) = wrap32 1 := by
    rw [eq_comm, wrap32_eq_self_iff]; omega
  unfold calculate_product
  rw [h1, foldl_mul_step, one_mul]

theorem input_tensor_values_length (rand : Nat → Nat) (n : Int) (h : 0 ≤ n) :
    ∃ values, input_tensor_values rand n = some values ∧ (values.length : Int) = n := by
  refine ⟨(List.range n.toNat).map (fun k => rand k % 255), ?_, ?_⟩
  · have h1 : ¬ n < 0 := by omega
    simp [input_tensor_values, h1]
  · simp [Int.toNat_of_nonneg h]

theorem prod_pos_of_pos (v : List Int) (hpos : ∀ d ∈ v, 0 < d) : 0 < v.prod := by
  induction v with
  | nil => simp
  | cons a l ih =>
    rw [List.prod_cons]
    have ha : 0 < a := hpos a (by simp)
    have hl : 0 < l.prod := ih (fun d hd => hpos d (by simp [hd]))
    exact Int.mul_pos ha hl

theorem print_shape_of_ne_nil (v : List Int) (hv : v ≠ []) :
    print_shape v = some ("x".intercalate (v.map toString)) := by
  rw [print_shape, print_shape_run_of_ne_nil v hv]

/-! ### `main` -/

theorem enumerate_events (query : Nat → Event) :
    ∀ (l : List (String × List Int)) (i : Nat),
      ∀ ev ∈ (enumerate query i l).1,
        (∃ j, ev = query j) ∨ ∃ name shape, ev = Event.print (Line.node name shape) := by
  intro l
  induction l with
  | nil => intro i ev h; simp [enumerate] at h
  | cons p l ih =>
    intro i ev h
    obtain ⟨name, shape⟩ := p
    simp only [enumerate] at h
    split at h
    · simp only [List.mem_singleton] at h
      exact Or.inl ⟨i, h⟩
    · simp only [List.mem_cons] at h
      rcases h with h | h | h
      · exact Or.inl ⟨i, h⟩
      · exact Or.inr ⟨name, _, h⟩
      · exact ih (i + 1) ev h

theorem enumerate_of_nonempty (query : Nat → Event) :
    ∀ (l : List (String × List Int)) (i : Nat), (∀ p ∈ l, p.2 ≠ []) →
      (enumerate query i l).2 = true ∧
        ∀ p ∈ l, Event.print (Line.node p.1 ("x".intercalate (p.2.map toString))) ∈
          (enumerate query i l).1 := by
  intro l
  induction l with
  | nil => intro i _; simp [enumerate]
  | cons p l ih =>
    intro i h
    obtain ⟨name, shape⟩ := p
    have hs : shape ≠ [] := h (name, shape) (by simp)
    have hl := ih (i + 1) (fun q hq => h q (by simp [hq]))
    simp only [enumerate, print_shape_of_ne_nil shape hs]
    refine ⟨hl.1, ?_⟩
    intro q hq
    simp only [List.mem_cons] at hq
    rcases hq with hq | hq
    · subst hq
      simp
    · simp only [List.mem_cons]
      exact Or.inr (Or.inr (hl.2 q hq))

theorem main_infer_no_usage (s : Session) (ins outs : List String) (ts : List Tensor) :
    Event.print Line.usage ∉ (main_infer s ins outs ts).events := by
  unfold main_infer
  split
  · simp
  · split
    · simp
    · split
      · simp
      · split
        · simp
        · split <;> simp

theorem main_synthesize_no_usage (rand : Nat → Nat) (e : Engine) (s : Session)
    (ins outs : List String) (shapes : List (List Int)) :
    Event.print Line.usage ∉ (main_synthesize rand e s ins outs shapes).events := by
  unfold main_synthesize
  split
  · simp
  · split
    · simp
    · split
      · simp
      · split
        · split
          · simp
          · have := main_infer_no_usage s ins outs
            simp [Run.after, this]
        · simp

theorem enumerate_no_usage (query : Nat → Event) (hq : ∀ j, query j ≠ Event.print Line.usage)
    (l : List (String × List Int)) (i : Nat) :
    Event.print Line.usage ∉ (enumerate query i l).1 := by
  intro h
  rcases enumerate_events query l i _ h with ⟨j, hj⟩ | ⟨name, shape, hj⟩
  · exact hq j hj.symm
  · cases hj

theorem main_session_no_usage (rand : Nat → Nat) (e : Engine) (s : Session) :
    Event.print Line.usage ∉ (main_session rand e s).events := by
  have h1 := enumerate_no_usage Event.queryInput (fun j => by simp) s.inputs 0
  have h2 := enumerate_no_usage Event.queryOutput (fun j => by simp) s.outputs 0
  have h3 := main_synthesize_no_usage rand e s (s.inputs.map Prod.fst) (s.outputs.map Prod.fst)
    (s.inputs.map Prod.snd)
  unfold main_session
  split
  · simp [h1]
  · split
    · simp [enumeration_events, h1, h2]
    · split
      · simp [enumeration_events, Run.after, h1, h2, h3]
      · simp [enumeration_events, h1, h2]

theorem setup_events_no_usage (use_openvino : Bool) (model_file : String) :
    Event.print Line.usage ∉ setup_events use_openvino model_file := by
  unfold setup_events
  cases use_openvino <;> simp

theorem main_infer_exit (s : Session) (ins outs : List String) (ts : List Tensor) :
    (main_infer s ins outs ts).exit ≠ Exit.assertFailed 115 ∧
      (main_infer s ins outs ts).exit ≠ Exit.outOfBounds 118 := by
  unfold main_infer
  split
  · exact ⟨by simp, by simp⟩
  · split
    · exact ⟨by simp, by simp⟩
    · split
      · exact ⟨by simp, by simp⟩
      · split
        · exact ⟨by simp, by simp⟩
        · split <;> exact ⟨by simp, by simp⟩

theorem main_synthesize_exit (rand : Nat → Nat) (e : Engine) (s : Session)
    (ins outs : List String) (shapes : List (List Int)) (input_shape : List Int)
    (h : shapes.get? 0 = some input_shape) :
    (main_synthesize rand e s ins outs shapes).exit ≠ Exit.assertFailed 115 ∧
      (main_synthesize rand e s ins outs shapes).exit ≠ Exit.outOfBounds 118 := by
  unfold main_synthesize
  simp only [h]
  split
  · exact ⟨by simp, by simp⟩
  · split
    · exact ⟨by simp, by simp⟩
    · split
      · split
        · exact ⟨by simp, by simp⟩
        · exact main_infer_exit s ins outs _
      · exact ⟨by simp, by simp⟩

end ModelExplorer

namespace Helper

/-! ### The transcoding -/

open ModelExplorer

/-! ### The helpers -/

theorem src_len_of_eq (s : List Nat) (h : s.length < INT_MAX) :
    src_len_of s = (s.length : Int) + 1 := by
  unfold INT_MAX at h
  have hw : wrap32 ((s.length + 1 : Nat) : Int) = ((s.length + 1 : Nat) : Int) :=
    (wrap32_eq_self_iff _).mpr (by push_cast; omega)
  unfold src_len_of
  rw [hw]
  push_cast
  rfl

theorem guard_result (api : List Nat → Int → Int → ApiAnswer) (l1 l2 : Nat) (s : List Nat)
    (term : Nat) :
    ((convert_with api l1 l2 s term).result = HelperResult.threw "length overflow" ↔
        INT_MAX ≤ s.length) ∧
      (INT_MAX ≤ s.length → (convert_with api l1 l2 s term).calls = []) ∧
      (s.length < INT_MAX →
        ∀ what, (convert_with api l1 l2 s term).result ≠ HelperResult.threw what) := by
  by_cases h : INT_MAX ≤ s.length
  · have hr : convert_with api l1 l2 s term =
        { calls := [], result := HelperResult.threw "length overflow" } := by
      unfold convert_with
      rw [if_pos h]
    rw [hr]
    exact ⟨⟨fun _ => h, fun _ => rfl⟩, fun _ => rfl, fun h' => absurd h (by omega)⟩
  · have hne : ∀ what, (convert_with api l1 l2 s term).result ≠ HelperResult.threw what := by
      intro what
      unfold convert_with
      simp only []
      rw [if_neg h]
      split_ifs <;> simp
    exact ⟨⟨fun h' => absurd h' (hne _), fun h' => absurd h' h⟩, fun h' => absurd h' h,
      fun _ => hne⟩

/-! ### The long text -/

/-- Whatever `int` the measuring call gives back, a helper whose converting call
finds no room in any destination an `int` can size ends in one of its two
assertions: the outcome on an output too long for the `int` count does not
depend on how the API answers the measuring call there. -/
theorem convert_with_stops (api : List Nat → Int → Int → ApiAnswer) (line_len line_r : Nat)
    (s : List Nat) (term : Nat) (hlen : s.length < INT_MAX)
    (hint : (api (s ++ [term]) (src_len_of s) 0).ret ≤ (INT_MAX : Int))
    (hroom : ∀ cap : Int, 0 < cap → cap ≤ (INT_MAX : Int) →
      (api (s ++ [term]) (src_len_of s) cap).ret = 0) :
    (convert_with api line_len line_r s term).result = HelperResult.assertFailed line_len ∨
      (convert_with api line_len line_r s term).result = HelperResult.assertFailed line_r := by
  have hguard : ¬ INT_MAX ≤ s.length := by omega
  unfold convert_with
  simp only []
  rw [if_neg hguard]
  by_cases h : (api (s ++ [term]) (src_len_of s) 0).ret ≤ 0
  · rw [if_pos h]
    exact Or.inl rfl
  · rw [if_neg h]
    have hpos : 0 < (api (s ++ [term]) (src_len_of s) 0).ret := by omega
    have h0 := hroom _ hpos hint
    have hne : (api (s ++ [term]) (src_len_of s) 0).ret ≠
        (api (s ++ [term]) (src_len_of s) (api (s ++ [term]) (src_len_of s) 0).ret).ret := by
      rw [h0]; omega
    rw [if_pos hne]
    exact Or.inr rfl

end Helper

namespace ModelExplorer

/-! ## The claims about `print_shape` and `calculate_product` -/

/-- C1: for every non-empty vector of dimension sizes `v`, `print_shape v` returns
the decimal renderings of the elements of `v`, in order, joined by the single
character `x`, with no separator before the first or after the last. -/
theorem print_shape_joined (v : List Int) (hv : v ≠ []) :
    print_shape v = some ("x".intercalate (v.map toString)) :=
  print_shape_of_ne_nil v hv

/-- Witness of C1 at the shapes `[1,3,224,224]` and `[5]` of the specification. -/
theorem print_shape_joined_witness :
    ([1, 3, 224, 224] : List Int) ≠ [] ∧
      print_shape [1, 3, 224, 224] = some "1x3x224x224" ∧
      print_shape [5] = some "5" :=
  ⟨by decide, print_shape_joined [1, 3, 224, 224] (by decide), print_shape_joined [5] (by decide)⟩

/-- C9: for every vector `v` (the empty one included, with result `1`),
`calculate_product v` is the product of the elements reduced once to a signed
32-bit integer: it is congruent to the product modulo `2^32`, lies in
`[-2^31, 2^31)`, and differs from the product exactly when the product is
outside that range; `calculate_product [65536, 65536] = 0`. -/
theorem calculate_product_wraps :
    (∀ v : List Int,
      calculate_product v = wrap32 v.prod ∧
      calculate_product v ≡ v.prod [ZMOD 2 ^ 32] ∧
      -2 ^ 31 ≤ calculate_product v ∧ calculate_product v < 2 ^ 31 ∧
      (calculate_product v ≠ v.prod ↔ (v.prod < -2 ^ 31 ∨ 2 ^ 31 ≤ v.prod))) ∧
    calculate_product [] = 1 ∧
    calculate_product [65536, 65536] = 0 := by
  refine ⟨fun v => ?_, rfl, ?_⟩
  · have h := calculate_product_eq_wrap32 v
    refine ⟨h, ?_, ?_, ?_, ?_⟩
    · rw [h]; exact wrap32_modEq _
    · rw [h]; exact (wrap32_range _).1
    · rw [h]; exact (wrap32_range _).2
    · rw [h, Ne, wrap32_eq_self_iff]
      omega
  · simp [calculate_product, mul_step, wrap32, wrap64]

/-- C10: `print_shape` runs without an out-of-bounds access exactly on the
non-empty vectors.  On a non-empty `v` the loop body runs `v.size() - 1` times and
the indices read are `0, 1, ..., v.size() - 1`, all inside `v`.  On the empty
vector the unsigned bound `v.size() - 1` is the largest `size_t`, the loop is
entered, and its first access `v[0]` is out of bounds: the loop, and with it the
call, ends there. -/
theorem print_shape_bounds :
    (∀ v : List Int, (∃ st, print_shape_run v = ShapeOutcome.finished st) ↔ v ≠ []) ∧
    (∀ v : List Int, v ≠ [] →
      ∃ st, print_shape_run v = ShapeOutcome.finished st ∧
        st.iters = v.length - 1 ∧ st.reads = List.range v.length ∧
        ∀ i ∈ st.reads, i < v.length) ∧
    (size_sub ([] : List Int).length 1 = SIZE_MAX ∧ 0 < SIZE_MAX ∧
      print_shape_loop [] SIZE_MAX 0 { ss := "", reads := [], iters := 0 } =
        ShapeOutcome.outOfBounds 0 { ss := "", reads := [], iters := 0 } ∧
      print_shape_run [] =
        ShapeOutcome.outOfBounds 0 { ss := "", reads := [], iters := 0 }) := by
  refine ⟨fun v => ⟨?_, ?_⟩, fun v hv => ?_, ?_, ?_, ?_, print_shape_run_nil⟩
  · rintro ⟨st, hst⟩ hv
    rw [hv, print_shape_run_nil] at hst
    cases hst
  · intro hv
    exact ⟨_, print_shape_run_of_ne_nil v hv⟩
  · refine ⟨_, print_shape_run_of_ne_nil v hv, rfl, rfl, ?_⟩
    intro i hi
    exact List.mem_range.mp hi
  · exact size_sub_zero_one
  · simp [SIZE_MAX]
  · rw [print_shape_loop]
    simp [SIZE_MAX]

/-- Witness of C10 at the shape `[1, 3, 224, 224]`. -/
theorem print_shape_bounds_witness :
    ∃ st, print_shape_run [1, 3, 224, 224] = ShapeOutcome.finished st ∧
      st.iters = 3 ∧ st.reads = [0, 1, 2, 3] :=
  match print_shape_bounds.2.1 [1, 3, 224, 224] (by decide) with
  | ⟨st, h, hi, hr, _⟩ => ⟨st, h, hi, hr⟩

/-- C2, as the code has it: for every input shape whose dimension sizes are all
positive and whose product is below `2^31`, `calculate_product` returns the
product of the dimension sizes, and the buffer synthesized for that count has
exactly that many elements; it is the buffer `main` builds from the first input
shape. -/
theorem calculate_product_exact (v : List Int) (hpos : ∀ d ∈ v, 0 < d)
    (hfit : v.prod < 2 ^ 31) (rand : Nat → Nat) :
    calculate_product v = v.prod ∧
      ∃ values, input_tensor_values rand (calculate_product v) = some values ∧
        (values.length : Int) = v.prod ∧
        ∀ (e : Engine) (s : Session) (ins outs : List String) (more : List (List Int)),
          (main_synthesize rand e s ins outs (v :: more)).events.head? =
            some (Event.synthesize values) := by
  have hp : 0 < v.prod := prod_pos_of_pos v hpos
  have hc : calculate_product v = v.prod := by
    rw [calculate_product_eq_wrap32, wrap32_eq_self_iff]
    omega
  obtain ⟨values, hv, hl⟩ := input_tensor_values_length rand v.prod (le_of_lt hp)
  refine ⟨hc, values, by rw [hc]; exact hv, hl, ?_⟩
  intro e s ins outs more
  simp only [main_synthesize, List.get?_cons_zero, hc, hv]
  split
  · rfl
  · split
    · split <;> rfl
    · rfl

/-- Witness of C2 (amended) at the shape `[2, 3, 4]`. -/
theorem calculate_product_exact_witness :
    calculate_product [2, 3, 4] = 24 ∧
      ∃ values, input_tensor_values (fun k => k) (calculate_product [2, 3, 4]) = some values ∧
        (values.length : Int) = 24 :=
  match calculate_product_exact [2, 3, 4] (by decide) (by decide) (fun k => k) with
  | ⟨h, values, hv, hl, _⟩ => ⟨h, values, hv, hl⟩

/-- Counterexample to C2 as stated: the dimension sizes of `[65536, 65536]` are
positive, and `calculate_product` returns `0`, not their product `4294967296`;
the buffer built for that count is empty. -/
theorem calculate_product_overflow :
    (∀ d ∈ ([65536, 65536] : List Int), 0 < d) ∧
      calculate_product [65536, 65536] = 0 ∧
      ([65536, 65536] : List Int).prod = 4294967296 ∧
      calculate_product [65536, 65536] ≠ ([65536, 65536] : List Int).prod ∧
      input_tensor_values (fun k => k) (calculate_product [65536, 65536]) = some [] := by
  have h : calculate_product [65536, 65536] = 0 := by
    simp [calculate_product, mul_step, wrap32, wrap64]
  refine ⟨by decide, h, by decide, ?_, ?_⟩
  · rw [h]; decide
  · rw [h]; rfl

/-! ## The claims about `main` -/

/-- C5: whenever `argc` is not `2`, the program prints the usage message, returns
status `-1`, and does nothing else (no environment, no session, no inference);
when `argc` is `2` the usage message is not printed. -/
theorem main_usage (use_openvino : Bool) (rand : Nat → Nat) (e : Engine) (argc : Int)
    (model_file : String) :
    (argc ≠ 2 →
      main use_openvino rand e argc model_file =
        { events := [Event.print Line.usage], exit := Exit.returned (-1) } ∧
      stdout_of (main use_openvino rand e argc model_file).events =
        "Usage: model-explorer.exe <onnx_model.onnx>\n") ∧
    (argc = 2 →
      Event.print Line.usage ∉ (main use_openvino rand e argc model_file).events) := by
  constructor
  · intro h
    have hm : main use_openvino rand e argc model_file =
        { events := [Event.print Line.usage], exit := Exit.returned (-1) } := by
      simp [main, h]
    rw [hm]
    exact ⟨rfl, rfl⟩
  · intro h
    subst h
    unfold main
    simp only [ne_eq, not_true_eq_false, if_false]
    split
    · exact setup_events_no_usage _ _
    · simp only [Run.after, List.mem_append, not_or]
      exact ⟨setup_events_no_usage _ _, main_session_no_usage _ _ _⟩

/-- Witness of C5: with no argument (`argc = 1`) the run is the usage line and
status `-1`. -/
theorem main_usage_witness :
    main false (fun k => k) (sample_engine [] (Except.ok [])) 1 "" =
      { events := [Event.print Line.usage], exit := Exit.returned (-1) } :=
  ((main_usage false (fun k => k) (sample_engine [] (Except.ok [])) 1 "").1 (by decide)).1

/-- C6: for a model whose declared shapes are all non-empty.  If the number of
inputs or the number of outputs is not one, `main` prints every input and output
descriptor and then stops at the assertion of line 115: it aborts, and no buffer
is synthesized, no tensor created, no inference run.  If there is exactly one
input and one output, the assertion passes, the program goes on to the
synthesis, and the access `input_shapes[0]` is in bounds. -/
theorem main_single_node_assertion (use_openvino : Bool) (rand : Nat → Nat) (e : Engine)
    (model_file : String) (s : Session)
    (hopen : e.openSession model_file = Except.ok s)
    (hin : ∀ p ∈ s.inputs, p.2 ≠ []) (hout : ∀ p ∈ s.outputs, p.2 ≠ []) :
    (s.inputs.length ≠ 1 ∨ s.outputs.length ≠ 1 →
      main use_openvino rand e 2 model_file =
        { events := setup_events use_openvino model_file ++ enumeration_events s,
          exit := Exit.assertFailed 115 } ∧
      (∀ p ∈ s.inputs,
        Event.print (Line.node p.1 ("x".intercalate (p.2.map toString))) ∈
          (main use_openvino rand e 2 model_file).events) ∧
      (∀ p ∈ s.outputs,
        Event.print (Line.node p.1 ("x".intercalate (p.2.map toString))) ∈
          (main use_openvino rand e 2 model_file).events) ∧
      (∀ ev ∈ (main use_openvino rand e 2 model_file).events, ev.is_tensor_work = false)) ∧
    (s.inputs.length = 1 ∧ s.outputs.length = 1 →
      main use_openvino rand e 2 model_file =
        Run.after (setup_events use_openvino model_file ++ enumeration_events s)
          (main_synthesize rand e s (s.inputs.map Prod.fst) (s.outputs.map Prod.fst)
            (s.inputs.map Prod.snd)) ∧
      (∃ input_shape, (s.inputs.map Prod.snd).get? 0 = some input_shape) ∧
      (main use_openvino rand e 2 model_file).exit ≠ Exit.assertFailed 115 ∧
      (main use_openvino rand e 2 model_file).exit ≠ Exit.outOfBounds 118) := by
  have h1 := enumerate_of_nonempty Event.queryInput s.inputs 0 hin
  have h2 := enumerate_of_nonempty Event.queryOutput s.outputs 0 hout
  have hmain : main use_openvino rand e 2 model_file =
      Run.after (setup_events use_openvino model_file) (main_session rand e s) := by
    simp [main, hopen]
  constructor
  · intro hne
    have hc : ¬ (s.inputs.length = 1 ∧ s.outputs.length = 1) := by
      intro h; rcases hne with h' | h'
      · exact h' h.1
      · exact h' h.2
    have hs : main_session rand e s =
        { events := enumeration_events s, exit := Exit.assertFailed 115 } := by
      simp [main_session, h1.1, h2.1, hc]
    have hm : main use_openvino rand e 2 model_file =
        { events := setup_events use_openvino model_file ++ enumeration_events s,
          exit := Exit.assertFailed 115 } := by
      rw [hmain, hs]; rfl
    rw [hm]
    refine ⟨rfl, ?_, ?_, ?_⟩
    · intro p hp
      have := h1.2 p hp
      simp only [enumeration_events, List.mem_append, List.mem_cons]
      tauto
    · intro p hp
      have := h2.2 p hp
      simp only [enumeration_events, List.mem_append, List.mem_cons]
      tauto
    · intro ev hev
      simp only [enumeration_events, List.mem_append, List.mem_cons] at hev
      rcases hev with hev | rfl | rfl | hev | rfl | rfl | hev
      · unfold setup_events at hev
        cases use_openvino <;> simp at hev <;> rcases hev with rfl | rfl | hev <;>
          first | rfl | (rcases hev with rfl | rfl | rfl <;> rfl)
      · rfl
      · rfl
      · rcases enumerate_events _ _ _ ev hev with ⟨j, rfl⟩ | ⟨n, sh, rfl⟩ <;> rfl
      · rfl
      · rfl
      · rcases enumerate_events _ _ _ ev hev with ⟨j, rfl⟩ | ⟨n, sh, rfl⟩ <;> rfl
  · intro hc
    have hs : main_session rand e s =
        Run.after (enumeration_events s)
          (main_synthesize rand e s (s.inputs.map Prod.fst) (s.outputs.map Prod.fst)
            (s.inputs.map Prod.snd)) := by
      simp [main_session, h1.1, h2.1, hc]
    have hm : main use_openvino rand e 2 model_file =
        Run.after (setup_events use_openvino model_file ++ enumeration_events s)
          (main_synthesize rand e s (s.inputs.map Prod.fst) (s.outputs.map Prod.fst)
            (s.inputs.map Prod.snd)) := by
      rw [hmain, hs]; simp [Run.after]
    have hlen : 0 < (s.inputs.map Prod.snd).length := by simp [hc.1]
    have hget : (s.inputs.map Prod.snd).get? 0 = some ((s.inputs.map Prod.snd)[0]) := by
      simp [List.getElem?_eq_getElem hlen]
    have hexit := main_synthesize_exit rand e s (s.inputs.map Prod.fst)
      (s.outputs.map Prod.fst) (s.inputs.map Prod.snd) _ hget
    rw [hm]
    exact ⟨rfl, ⟨_, hget⟩, hexit.1, hexit.2⟩

/-- Witness of C6 at a model with two inputs: the run stops at the assertion. -/
theorem main_single_node_assertion_witness :
    (main false (fun k => k)
        (sample_engine [("a", [1, 2]), ("b", [3])] (Except.ok [])) 2 "m.onnx").exit =
      Exit.assertFailed 115 :=
  congrArg Run.exit
    ((main_single_node_assertion false (fun k => k)
      (sample_engine [("a", [1, 2]), ("b", [3])] (Except.ok [])) "m.onnx"
      (sample_session [("a", [1, 2]), ("b", [3])] (Except.ok [])) rfl
      (by decide) (by decide)).1 (by decide)).1

end ModelExplorer

namespace Helper

open ModelExplorer

/-! ## The claims about `ToUTF8String` and `ToWideString` -/

/-- C4: each of `ToUTF8String` and `ToWideString` throws `length overflow` exactly
when the input length is not below `INT_MAX`; when it throws, the conversion API
has not been called; when the length is below `INT_MAX` nothing is thrown and
`src_len = size + 1` is a positive `int`. -/
theorem length_overflow_check (s : List Nat) (term : Nat) :
    ((ToUTF8String s term).result = HelperResult.threw "length overflow" ↔
      INT_MAX ≤ s.length) ∧
    ((ToWideString s term).result = HelperResult.threw "length overflow" ↔
      INT_MAX ≤ s.length) ∧
    (INT_MAX ≤ s.length →
      (ToUTF8String s term).calls = [] ∧ (ToWideString s term).calls = []) ∧
    (s.length < INT_MAX →
      (∀ what, (ToUTF8String s term).result ≠ HelperResult.threw what) ∧
      (∀ what, (ToWideString s term).result ≠ HelperResult.threw what) ∧
      src_len_of s = (s.length : Int) + 1 ∧ 0 < src_len_of s ∧
      src_len_of s ≤ (INT_MAX : Int)) := by
  have h8 := guard_result WideCharToMultiByte 27 31 s term
  have h16 := guard_result MultiByteToWideChar 42 46 s term
  refine ⟨h8.1, h16.1, fun h => ⟨h8.2.1 h, h16.2.1 h⟩, fun h => ?_⟩
  have hs := src_len_of_eq s h
  refine ⟨h8.2.2 h, h16.2.2 h, hs, ?_, ?_⟩
  · rw [hs]; omega
  · rw [hs]; omega

/-- Witness of C4 at the two-unit input `hi`: nothing is thrown and `src_len` is `3`. -/
theorem length_overflow_check_witness :
    (∀ what, (ToUTF8String [104, 105] 0).result ≠ HelperResult.threw what) ∧
      (∀ what, (ToWideString [104, 105] 0).result ≠ HelperResult.threw what) ∧
      src_len_of [104, 105] = 3 :=
  match (length_overflow_check [104, 105] 0).2.2.2 (by norm_num [INT_MAX]) with
  | ⟨h1, h2, h3, _, _⟩ => ⟨h1, h2, h3⟩

end Helper
